import Mathlib

/-!
Verification development for the streaming SAE evaluation engine
(`vit_prisma/sae/evals/evaluator.py`).

The Python source is shallowly embedded: tensors of feature activations
become nested lists of rationals indexed `[example][token][feature]`,
the running totals of `Evaluator.process_dataset` become an explicit
record threaded through a fold, Python's fallible division becomes an
`Except`-valued function, and the per-feature top-image ranking state of
`Evaluator.plot_log_frequencies` becomes an optional association list of
`(global example id, activation value)` pairs.
-/

/-- Error taxonomy for the evaluation pass.  `invalidContext` models the
`ValueError` raised by the `evaluation_cfg` setter (evaluator.py lines
84-88); `zeroDivision` models Python's `ZeroDivisionError`.
Modelled from the spec: `emptyEvaluation` stands for the spec's
`EmptyEvaluationError`, which has no counterpart anywhere in the source;
it is included only so that statements about it can be written down. -/
inductive EvalError where
  | invalidContext
  | zeroDivision
  | emptyEvaluation
deriving DecidableEq

deriving instance DecidableEq for Except

/-- Python division on rationals: raises `ZeroDivisionError` on a zero
denominator, otherwise returns the exact quotient. -/
def pydiv (a b : ℚ) : Except EvalError ℚ :=
  if b = 0 then Except.error EvalError.zeroDivision else Except.ok (a / b)

/-- Number of strictly positive entries of a feature row:
`(feature_acts ... > 0).float().sum(-1)` for one token. -/
def countPos (row : List ℚ) : ℕ :=
  row.countP (fun x => decide (0 < x))

/-- `np.mean` over a list of rationals (only ever applied to nonempty
lists on the paths modelled here). -/
def npMean (l : List ℚ) : ℚ :=
  l.sum / l.length

/-- One batch as consumed by `process_dataset`: the SAE feature
activations indexed `[example][token][feature]`, and the three scalar
loss terms returned by `get_recons_loss` for the batch. -/
structure EvalBatch where
  featureActs : List (List (List ℚ))
  loss : ℚ
  reconsLoss : ℚ
  zeroAblLoss : ℚ
deriving DecidableEq

/-- The running totals accumulated by the loop of `process_dataset`
(evaluator.py lines 115-206): loss sums, the sample count, and the
per-image observation lists `all_l0`, `all_l0_cls`, `all_l0_image`. -/
structure RunningTotals where
  totalLoss : ℚ
  totalRecons : ℚ
  totalZeroAbl : ℚ
  totalSamples : ℕ
  allL0 : List ℚ
  allL0cls : List ℚ
  allL0image : List ℚ
deriving DecidableEq

/-- The zero-initialised totals at the top of `process_dataset`. -/
def initTotals : RunningTotals :=
  ⟨0, 0, 0, 0, [], [], []⟩

/-- Per-image mean over non-class tokens of the positive-feature count:
`l0 = (feature_acts[:, 1:, :] > 0).float().sum(-1)` then
`l0.mean(dim=1)` (evaluator.py lines 163-164). -/
def imageL0tail (img : List (List ℚ)) : ℚ :=
  npMean (img.tail.map (fun row => (countPos row : ℚ)))

/-- Class-token positive-feature count of one image:
`(feature_acts[:, 0, :] > 0).float().sum(-1)` (evaluator.py line 165). -/
def imageL0cls (img : List (List ℚ)) : ℚ :=
  (countPos (img.headD []) : ℚ)

/-- Whole-image L0: positive-feature counts summed over all tokens,
`l0.sum(dim=1)` (evaluator.py lines 169-170). -/
def imageL0all (img : List (List ℚ)) : ℚ :=
  ((img.map countPos).sum : ℕ)

/-- Fold one batch into the running totals, mirroring the body of the
loop in `process_dataset` (sample counting at line 141, L0 collection at
lines 162-171, loss accumulation at lines 201-203). -/
def ingestBatch (t : RunningTotals) (b : EvalBatch) : RunningTotals :=
  { totalLoss := t.totalLoss + b.loss
    totalRecons := t.totalRecons + b.reconsLoss
    totalZeroAbl := t.totalZeroAbl + b.zeroAblLoss
    totalSamples := t.totalSamples + b.featureActs.length
    allL0 := t.allL0 ++ b.featureActs.map imageL0tail
    allL0cls := t.allL0cls ++ b.featureActs.map imageL0cls
    allL0image := t.allL0image ++ b.featureActs.map imageL0all }

/-- The batch loop of `process_dataset` with its cooperative early stop:
after each batch, `if total_samples >= max_evaluation_images: break`
(evaluator.py lines 205-206). -/
def runLoop (maxImages : ℕ) : List EvalBatch → RunningTotals → RunningTotals
  | [], t => t
  | b :: bs, t =>
    let t := ingestBatch t b
    if maxImages ≤ t.totalSamples then t else runLoop maxImages bs t

/-- The statistics snapshot assembled at the end of `process_dataset`
(the `EvalStats` fields computed at lines 209-215; the cosine-similarity
and log-frequency fields are modelled separately). -/
structure EvalStatsModel where
  avgLoss : ℚ
  avgRecons : ℚ
  avgZeroAbl : ℚ
  avgL0 : ℚ
  avgL0cls : ℚ
  avgL0image : ℚ
deriving DecidableEq

/-- Finalisation of `process_dataset` (lines 209-215): the three loss
totals are divided by `total_samples` — Python raises
`ZeroDivisionError` when that count is zero, there is no guard — and
the collected observation lists are averaged with `np.mean`. -/
def finalizeStats (t : RunningTotals) : Except EvalError EvalStatsModel := do
  let avgLoss ← pydiv t.totalLoss t.totalSamples
  let avgRecons ← pydiv t.totalRecons t.totalSamples
  let avgZeroAbl ← pydiv t.totalZeroAbl t.totalSamples
  pure ⟨avgLoss, avgRecons, avgZeroAbl,
        npMean t.allL0, npMean t.allL0cls, npMean t.allL0image⟩

/-- End-to-end model of `process_dataset`: run the batch loop, then
finalise the averages. -/
def process_dataset (maxImages : ℕ) (batches : List EvalBatch) :
    Except EvalError EvalStatsModel :=
  finalizeStats (runLoop maxImages batches initTotals)

/-- The concrete activation tensor of the spec's statistics scenario:
2 examples, 3 tokens (token 0 the class token), 4 features. -/
def scenarioActs : List (List (List ℚ)) :=
  [[[1, 0, 0, 0], [0, 2, 0, 0], [0, 0, 0, 0]],
   [[0, 0, 3, 0], [0, 0, 0, 0], [0, 0, 0, 4]]]

/-- The scenario batch: the activations above with zero loss terms
(the loss terms do not enter the L0 statistics). -/
def scenarioBatch : EvalBatch :=
  ⟨scenarioActs, 0, 0, 0⟩

/-- `torch.unique` on a list of example ids: the distinct ids in
ascending order (evaluator.py lines 353-355 and 376-378). -/
def uniqueSorted (l : List ℕ) : List ℕ :=
  l.dedup.insertionSort (· ≤ ·)

/-- The example ids of a list of `(id, value)` pairs. -/
def idsOf (pairs : List (ℕ × ℚ)) : List ℕ :=
  pairs.map Prod.fst

/-- All values submitted for example id `e` in a list of pairs. -/
def submittedVals (pairs : List (ℕ × ℚ)) (e : ℕ) : List ℚ :=
  (pairs.filter (fun p => p.1 = e)).map Prod.snd

/-- `index_reduce_(…, "amax")` into a `torch.zeros_like` buffer with the
default `include_self=True`: the zero initial value takes part in the
maximum (evaluator.py lines 356-361 and 379-384). -/
def amax0 (l : List ℚ) : ℚ :=
  l.foldl max 0

/-- Scatter-style amax reduction by example id: one `(id, value)` pair
per distinct id, ids ascending, each value the maximum of 0 and all
values submitted for that id.  This models the
`torch.unique`/`index_reduce_("amax")` block of `plot_log_frequencies`
(evaluator.py lines 351-361, repeated at 376-384). -/
def scatterAmax (pairs : List (ℕ × ℚ)) : List (ℕ × ℚ) :=
  (uniqueSorted (idsOf pairs)).map (fun u => (u, amax0 (submittedVals pairs u)))

/-- Ranking order on `(id, value)` pairs: descending value, ties broken
by ascending id; used to model the deterministic selection of
`torch.topk(…, k)` on the deduplicated values. -/
def rankRel (p q : ℕ × ℚ) : Prop :=
  q.2 < p.2 ∨ (q.2 = p.2 ∧ p.1 ≤ q.1)

instance : DecidableRel rankRel := fun p q => by
  unfold rankRel
  infer_instance

/-- Sort pairs by descending value (ascending id on equal values). -/
def rankSort (l : List (ℕ × ℚ)) : List (ℕ × ℚ) :=
  l.insertionSort rankRel

/-- One ranker merge for one tracked feature (evaluator.py lines
340-399): per-batch pairs are deduplicated by id with amax; on the
first batch the result is stored as-is (`max_indices[feature_id] is
None` branch, lines 363-365, with no top-k truncation); on later
batches it is concatenated with the retained pairs, deduplicated again,
and truncated to the `max_images_per_feature` pairs of largest value
only when the deduplicated length exceeds that capacity
(lines 367-399). -/
def mergeBatch (K : ℕ) (st : Option (List (ℕ × ℚ))) (batch : List (ℕ × ℚ)) :
    Option (List (ℕ × ℚ)) :=
  let pool := scatterAmax batch
  match st with
  | none => some pool
  | some prev =>
    let merged := scatterAmax (prev ++ pool)
    if K < merged.length then some ((rankSort merged).take K) else some merged

/-- Run the ranker for one tracked feature over a sequence of batches,
starting from the `None` initial state of `max_indices`/`max_values`
(evaluator.py line 319-320). -/
def runRanker (K : ℕ) (batches : List (List (ℕ × ℚ))) : Option (List (ℕ × ℚ)) :=
  batches.foldl (mergeBatch K) none

/-- The retained pairs of a ranker state (empty before any batch). -/
def rankerPairs : Option (List (ℕ × ℚ)) → List (ℕ × ℚ)
  | none => []
  | some l => l

/-- The number of retained pairs of a ranker state. -/
def rankerSize (st : Option (List (ℕ × ℚ))) : ℕ :=
  (rankerPairs st).length

/-- The evaluation configuration selected per context; the fields are
the ones `Evaluator` reads from `self.evaluation_cfg`
(`max_evaluation_images`, `batch_size`, `samples_per_bin`,
`max_images_per_feature`, `evaluation_functions`, `patch_size` being
plotting-only is omitted). -/
structure EvalCfgModel where
  max_evaluation_images : ℕ
  batch_size : ℕ
  samples_per_bin : ℕ
  max_images_per_feature : ℕ
  evaluation_functions : List String
deriving DecidableEq

/-- The part of `VisionModelSAERunnerConfig` the evaluator reads for
context selection: the two evaluation configurations. -/
structure RunnerCfgModel where
  training_eval : EvalCfgModel
  post_training_eval : EvalCfgModel
deriving DecidableEq

/-- The `evaluation_cfg` property setter (evaluator.py lines 78-88):
`"training"` selects `cfg.training_eval`, `"post-training"` selects
`cfg.post_training_eval`, anything else raises `ValueError`. -/
def set_evaluation_cfg (cfg : RunnerCfgModel) (context : String) :
    Except EvalError EvalCfgModel :=
  if context = "training" then Except.ok cfg.training_eval
  else if context = "post-training" then Except.ok cfg.post_training_eval
  else Except.error EvalError.invalidContext

/-- The attribute names of `Evaluator` that `getattr(self, func_name,
None)` resolves to a truthy value while `evaluate` is dispatching (all
methods of the class plus the instance attributes set in `__init__`;
`_evaluation_cfg` has just been set, so it is truthy too). -/
def evaluatorAttrs : List String :=
  ["model", "data", "dataloader", "visualize_data", "cfg",
   "_evaluation_cfg", "evaluation_cfg", "evaluate", "process_dataset",
   "save_stats", "plot_log_frequencies", "compute_neuron_activations",
   "find_top_activations_for_neurons", "visualize_top_activations"]

/-- The dispatch loop of `evaluate` (evaluator.py lines 100-106): each
configured name is looked up; a resolvable name is invoked, an
unresolvable one produces a warning and is skipped.  The result is the
pair (names invoked, names warned about), in order; the function is
total — no exception escapes the loop. -/
def dispatchEvals (names : List String) : List String × List String :=
  names.foldl
    (fun acc n =>
      if evaluatorAttrs.contains n then (acc.1 ++ [n], acc.2)
      else (acc.1, acc.2 ++ [n]))
    ([], [])

/-- The `evaluate` entry point (evaluator.py lines 90-106): resolve the
evaluation configuration from the context string first — an invalid
context raises before any batch is touched — then run the statistics
pass and dispatch the configured evaluation functions. -/
def evaluateRun (cfg : RunnerCfgModel) (context : String)
    (batches : List EvalBatch) :
    Except EvalError (EvalStatsModel × List String × List String) := do
  let ecfg ← set_evaluation_cfg cfg context
  let stats ← process_dataset ecfg.max_evaluation_images batches
  pure (stats, dispatchEvals ecfg.evaluation_functions)

/-- One step of the 64-bit linear congruential generator used to model
the stream of pseudo-random numbers behind `torch.randperm` (the torch
global generator, deterministic once seeded). -/
def lcgNext (s : ℕ) : ℕ :=
  (6364136223846793005 * s + 1442695040888963407) % 18446744073709551616

/-- Fisher-Yates draw: with `fuel = l.length`, repeatedly pick the
position `s % l.length` from the remaining elements.  This models the
permutation produced by `torch.randperm` from the generator state. -/
def fyAux : ℕ → ℕ → List ℕ → List ℕ
  | 0, _, _ => []
  | fuel + 1, s, l =>
    let j := s % l.length
    l.getD j 0 :: fyAux fuel (lcgNext s) (l.eraseIdx j)

/-- Model of `torch.randperm n` as a deterministic function of the
generator state `seed`: a pseudo-random permutation of `0, …, n-1`. -/
def randperm (seed n : ℕ) : List ℕ :=
  fyAux n (lcgNext seed) (List.range n)

/-- `torch.nonzero(condition, as_tuple=True)[0]`: the ascending indices
at which the bin's predicate holds (evaluator.py line 293). -/
def nonzeroIndices (cond : List Bool) : List ℕ :=
  (List.range cond.length).filter (fun i => cond.getD i false)

/-- Sampling of feature ids from one frequency bin (evaluator.py lines
292-299): `potential_indices[torch.randperm(len(potential_indices))[: samples_per_bin]]`.
`cond` is the bin's predicate evaluated per feature, `count` is
`samples_per_bin`, and `seed` is the generator state at the call. -/
def sampleBin (cond : List Bool) (count : ℕ) (seed : ℕ) : List ℕ :=
  let potential := nonzeroIndices cond
  ((randperm seed potential.length).take count).map (fun i => potential.getD i 0)

/-- `einops.rearrange "batch seq d -> (batch seq) d"` (evaluator.py
lines 176-182): flatten the example and token axes. -/
def flatten3 (t : List (List (List ℚ))) : List (List ℚ) :=
  t.flatten

/-- Column `j` of a flattened activation matrix. -/
def colAt (m : List (List ℚ)) (j : ℕ) : List ℚ :=
  m.map (fun r => r.getD j 0)

/-- Dot product of two equal-length rational vectors. -/
def dotQ (x y : List ℚ) : ℚ :=
  (List.zipWith (fun a b => a * b) x y).sum

/-- The `eps` clamp of `torch.cosine_similarity` (default `1e-8`). -/
noncomputable def torchEps : ℝ :=
  1 / 100000000

/-- `torch.cosine_similarity(x, y, dim=0)` for one feature column:
`⟨x,y⟩ / max(eps, ‖x‖·‖y‖)`. -/
noncomputable def cosSim (x y : List ℚ) : ℝ :=
  (dotQ x y : ℝ) / max torchEps (Real.sqrt (dotQ x x) * Real.sqrt (dotQ y y))

/-- The per-batch cosine statistic (evaluator.py lines 174-187): cosine
similarity along the flattened `(batch seq)` axis for each of the `d`
feature-dimension columns, then `.mean(-1)` over the columns. -/
noncomputable def batchCosSim (d : ℕ) (act saeOut : List (List (List ℚ))) : ℝ :=
  (((List.range d).map (fun j =>
      cosSim (colAt (flatten3 act) j) (colAt (flatten3 saeOut) j))).sum) / d

/-- `np.mean` over a list of reals. -/
noncomputable def npMeanR (l : List ℝ) : ℝ :=
  l.sum / l.length

/-- The loop's collection of per-batch cosine scalars
(`all_cosine_similarity.append(cos_sim)`, evaluator.py line 188). -/
noncomputable def collectCosSims (d : ℕ)
    (batches : List (List (List (List ℚ)) × List (List (List ℚ)))) : List ℝ :=
  batches.foldl (fun acc b => acc ++ [batchCosSim d b.1 b.2]) []

/-- `avg_cos_sim = np.mean(all_cosine_similarity)` (evaluator.py line
217): the code's reported average cosine similarity. -/
noncomputable def avg_cos_sim (d : ℕ)
    (batches : List (List (List (List ℚ)) × List (List (List ℚ)))) : ℝ :=
  npMeanR (collectCosSims d batches)

/-- Stated from the spec's words, for comparison with `avg_cos_sim`:
the unweighted arithmetic mean, over batches, of the per-batch
cosine-similarity means. -/
noncomputable def specUnweightedAvg (d : ℕ)
    (batches : List (List (List (List ℚ)) × List (List (List ℚ)))) : ℝ :=
  npMeanR (batches.map (fun b => batchCosSim d b.1 b.2))

/-- Stated from the spec's words: the size-weighted average the spec
says the code does NOT compute — each batch weighted by its number of
examples. -/
noncomputable def sizeWeightedAvg (d : ℕ)
    (batches : List (List (List (List ℚ)) × List (List (List ℚ)))) : ℝ :=
  (batches.map (fun b => (b.1.length : ℝ) * batchCosSim d b.1 b.2)).sum /
    (batches.map (fun b => (b.1.length : ℝ))).sum

/-- A one-example batch whose activations reconstruct perfectly: every
column cosine is 1. -/
def cosBatchA : List (List (List ℚ)) :=
  [[[1, 1]]]

/-- A three-example batch of activations orthogonal to its
reconstruction `cosBatchBout`: every column cosine is 0. -/
def cosBatchB : List (List (List ℚ)) :=
  [[[1, 1]], [[0, 0]], [[0, 0]]]

/-- The reconstruction paired with `cosBatchB`. -/
def cosBatchBout : List (List (List ℚ)) :=
  [[[0, 0]], [[1, 1]], [[0, 0]]]

/-! Helper lemmas about the deduplicating sort behind `torch.unique`. -/

theorem mem_uniqueSorted {x : ℕ} {l : List ℕ} : x ∈ uniqueSorted l ↔ x ∈ l := by
  unfold uniqueSorted
  rw [List.mem_insertionSort]
  exact List.mem_dedup

theorem uniqueSorted_nodup (l : List ℕ) : (uniqueSorted l).Nodup :=
  ((List.perm_insertionSort _ _).nodup_iff).mpr l.nodup_dedup

theorem uniqueSorted_sorted (l : List ℕ) : List.Sorted (· ≤ ·) (uniqueSorted l) :=
  List.sorted_insertionSort _ _

theorem uniqueSorted_eq_of_mem_iff {l1 l2 : List ℕ} (h : ∀ x, x ∈ l1 ↔ x ∈ l2) :
    uniqueSorted l1 = uniqueSorted l2 :=
  List.eq_of_perm_of_sorted
    ((List.perm_ext_iff_of_nodup (uniqueSorted_nodup l1) (uniqueSorted_nodup l2)).mpr
      (fun a => by rw [mem_uniqueSorted, mem_uniqueSorted]; exact h a))
    (uniqueSorted_sorted l1) (uniqueSorted_sorted l2)

theorem uniqueSorted_of_sorted_nodup {l : List ℕ} (hs : List.Sorted (· ≤ ·) l)
    (hn : l.Nodup) : uniqueSorted l = l := by
  unfold uniqueSorted
  rw [hn.dedup]
  exact List.Sorted.insertionSort_eq hs

/-! Helper lemmas about the zero-seeded amax reduction. -/

theorem le_foldl_max (l : List ℚ) (a : ℚ) : a ≤ l.foldl max a := by
  induction l generalizing a with
  | nil => exact le_refl a
  | cons x xs ih => exact le_trans (le_max_left a x) (ih (max a x))

theorem amax0_nonneg (l : List ℚ) : 0 ≤ amax0 l :=
  le_foldl_max l 0

theorem amax0_pair_self (v : ℚ) (h : 0 ≤ v) : amax0 [v, v] = v := by
  unfold amax0
  simp [List.foldl_cons, max_eq_right h]

theorem idsOf_scatterAmax (pairs : List (ℕ × ℚ)) :
    idsOf (scatterAmax pairs) = uniqueSorted (idsOf pairs) := by
  simp only [idsOf, scatterAmax, List.map_map]
  exact List.map_id _

theorem scatterAmax_length (pairs : List (ℕ × ℚ)) :
    (scatterAmax pairs).length = (uniqueSorted (idsOf pairs)).length := by
  simp [scatterAmax]

theorem submittedVals_append (l1 l2 : List (ℕ × ℚ)) (e : ℕ) :
    submittedVals (l1 ++ l2) e = submittedVals l1 e ++ submittedVals l2 e := by
  simp [submittedVals, List.filter_append]

theorem filter_fst_map_pair {us : List ℕ} (hn : us.Nodup) (g : ℕ → ℚ) (e : ℕ) :
    ((us.map (fun u => (u, g u))).filter (fun p => p.1 = e)).map Prod.snd =
      if e ∈ us then [g e] else [] := by
  induction us with
  | nil => simp
  | cons a us ih =>
    rw [List.nodup_cons] at hn
    by_cases he : a = e
    · subst he
      have : a ∉ us := hn.1
      simp [List.filter_cons, ih hn.2, this]
    · simp [List.filter_cons, he, ih hn.2, Ne.symm he]

theorem submittedVals_scatterAmax (pairs : List (ℕ × ℚ)) (e : ℕ) :
    submittedVals (scatterAmax pairs) e =
      if e ∈ idsOf pairs then [amax0 (submittedVals pairs e)] else [] := by
  unfold submittedVals scatterAmax
  rw [show (fun p : ℕ × ℚ => decide (p.1 = e)) = (fun p : ℕ × ℚ => p.1 = e) from rfl]
  rw [filter_fst_map_pair (uniqueSorted_nodup _) (fun u => amax0 (submittedVals pairs u)) e]
  by_cases h : e ∈ idsOf pairs
  · rw [if_pos (mem_uniqueSorted.mpr h), if_pos h]
    rfl
  · rw [if_neg (fun hc => h (mem_uniqueSorted.mp hc)), if_neg h]

/-! Helper lemmas about the ranker merge. -/

theorem mem_rankSort {p : ℕ × ℚ} {l : List (ℕ × ℚ)} : p ∈ rankSort l ↔ p ∈ l := by
  unfold rankSort
  exact List.mem_insertionSort rankRel

theorem scatterAmax_snd_nonneg {pairs : List (ℕ × ℚ)} {p : ℕ × ℚ}
    (h : p ∈ scatterAmax pairs) : 0 ≤ p.2 := by
  rcases List.mem_map.mp h with ⟨u, _, rfl⟩
  exact amax0_nonneg _

theorem mergeBatch_mem_nonneg (K : ℕ) (st : Option (List (ℕ × ℚ)))
    (b : List (ℕ × ℚ)) : ∀ p ∈ rankerPairs (mergeBatch K st b), 0 ≤ p.2 := by
  intro p hp
  cases st with
  | none => exact scatterAmax_snd_nonneg hp
  | some prev =>
    simp only [mergeBatch] at hp
    split at hp
    · exact scatterAmax_snd_nonneg
        (mem_rankSort.mp (List.take_subset _ _ hp))
    · exact scatterAmax_snd_nonneg hp

theorem mergeBatch_some_size (K : ℕ) (prev b : List (ℕ × ℚ)) :
    ∃ l, mergeBatch K (some prev) b = some l ∧ l.length ≤ K := by
  simp only [mergeBatch]
  split
  · exact ⟨_, rfl, by rw [List.length_take]; exact min_le_left _ _⟩
  · next h => exact ⟨_, rfl, le_of_not_lt h⟩

theorem runFrom_size (K : ℕ) :
    ∀ (batches : List (List (ℕ × ℚ))) (st : List (ℕ × ℚ)), batches ≠ [] →
      rankerSize (batches.foldl (mergeBatch K) (some st)) ≤ K := by
  intro batches
  induction batches with
  | nil => intro st h; exact absurd rfl h
  | cons b bs ih =>
    intro st _
    rcases mergeBatch_some_size K st b with ⟨l, hl, hlen⟩
    rw [List.foldl_cons, hl]
    cases bs with
    | nil => simpa [rankerSize, rankerPairs] using hlen
    | cons b2 bs2 => exact ih l (by simp)

theorem runFrom_nonneg (K : ℕ) :
    ∀ (batches : List (List (ℕ × ℚ))) (st : Option (List (ℕ × ℚ))),
      (∀ p ∈ rankerPairs st, 0 ≤ p.2) →
      ∀ p ∈ rankerPairs (batches.foldl (mergeBatch K) st), 0 ≤ p.2 := by
  intro batches
  induction batches with
  | nil => intro st h; simpa using h
  | cons b bs ih =>
    intro st _
    rw [List.foldl_cons]
    exact ih _ (mergeBatch_mem_nonneg K st b)

theorem scatterAmax_doubled (b : List (ℕ × ℚ)) :
    scatterAmax (scatterAmax b ++ scatterAmax b) = scatterAmax b := by
  have hids : idsOf (scatterAmax b ++ scatterAmax b) =
      uniqueSorted (idsOf b) ++ uniqueSorted (idsOf b) := by
    have h1 : idsOf (scatterAmax b ++ scatterAmax b) =
        idsOf (scatterAmax b) ++ idsOf (scatterAmax b) := by
      simp [idsOf]
    rw [h1, idsOf_scatterAmax]
  have huniq : uniqueSorted (idsOf (scatterAmax b ++ scatterAmax b)) =
      uniqueSorted (idsOf b) := by
    rw [hids]
    calc uniqueSorted (uniqueSorted (idsOf b) ++ uniqueSorted (idsOf b))
        = uniqueSorted (uniqueSorted (idsOf b)) :=
          uniqueSorted_eq_of_mem_iff (fun x => by simp)
      _ = uniqueSorted (idsOf b) :=
          uniqueSorted_of_sorted_nodup (uniqueSorted_sorted _) (uniqueSorted_nodup _)
  show (uniqueSorted (idsOf (scatterAmax b ++ scatterAmax b))).map _ = _
  rw [huniq]
  apply List.map_congr_left
  intro u hu
  have hmem : u ∈ idsOf b := mem_uniqueSorted.mp hu
  have hsv : submittedVals (scatterAmax b) u = [amax0 (submittedVals b u)] := by
    rw [submittedVals_scatterAmax, if_pos hmem]
  rw [submittedVals_append, hsv, List.singleton_append]
  rw [amax0_pair_self _ (amax0_nonneg _)]

/-- C1 (counterexample): with capacity `K = 1`, merging a single first
batch containing two distinct example ids leaves a retained set of size
2 > K, because the first-batch branch of the merge
(`max_indices[feature_id] is None`, evaluator.py lines 363-365) stores
the deduplicated batch without any top-k truncation.  This refutes the
claim that the size bound holds immediately after the first batch. -/
theorem C1_counterexample :
    rankerSize (runRanker 1 [[(0, 1), (1, 2)]]) = 2 ∧
    ¬ rankerSize (runRanker 1 [[(0, 1), (1, 2)]]) ≤ 1 := by
  constructor
  · decide
  · decide

/-- C1 (amended): for every capacity `K`, every batch sequence and every
tracked feature, the retained set has size at most `K` after every merge
except the first; immediately after the first merge its size is the
number of distinct example ids of that batch, which the code does not
truncate and which may therefore exceed `K`. -/
theorem C1_sizeBound :
    (∀ (K : ℕ) (b : List (ℕ × ℚ)) (rest : List (List (ℕ × ℚ))), rest ≠ [] →
        rankerSize (runRanker K (b :: rest)) ≤ K) ∧
    (∀ (K : ℕ) (b : List (ℕ × ℚ)),
        rankerSize (runRanker K [b]) = (uniqueSorted (idsOf b)).length) := by
  constructor
  · intro K b rest h
    rw [runRanker, List.foldl_cons]
    exact runFrom_size K rest (scatterAmax b) h
  · intro K b
    simp [runRanker, mergeBatch, rankerSize, rankerPairs, scatterAmax_length]

/-- C1 (witness): instantiation of the amended bound at `K = 1` with a
two-batch run. -/
theorem C1_sizeBound_witness :
    ([[((1 : ℕ), (2 : ℚ))]] : List (List (ℕ × ℚ))) ≠ [] ∧
    rankerSize (runRanker 1 [[(0, 1)], [(1, 2)]]) ≤ 1 :=
  ⟨by decide, C1_sizeBound.1 1 [(0, 1)] [[(1, 2)]] (by decide)⟩

/-- C10: every value held in the retained per-feature set is
nonnegative after every merge — the amax reduction accumulates into a
`torch.zeros_like` buffer whose zeros take part in the maximum — and,
concretely, an example id submitted only with negative activation
values is retained with value 0. -/
theorem C10_nonneg :
    (∀ (K : ℕ) (batches : List (List (ℕ × ℚ))) (p : ℕ × ℚ),
        p ∈ rankerPairs (runRanker K batches) → 0 ≤ p.2) ∧
    runRanker 2 [[(7, -3), (7, -1)]] = some [(7, 0)] := by
  constructor
  · intro K batches p hp
    exact runFrom_nonneg K batches none (by simp [rankerPairs]) p hp
  · decide

/-- C10 (witness): the nonnegativity invariant applied to the concrete
one-batch run `[[(7, -3)]]` at the retained pair `(7, 0)`. -/
theorem C10_nonneg_witness :
    ((7, (0 : ℚ)) ∈ rankerPairs (runRanker 2 [[(7, -3)]])) ∧
    (0 : ℚ) ≤ ((7, (0 : ℚ)) : ℕ × ℚ).2 :=
  ⟨by decide, C10_nonneg.1 2 [[(7, -3)]] (7, 0) (by decide)⟩

/-- C4 (counterexample): example id 5 is submitted with value -2 and
later with value -1 > -2 for the same feature, yet the retained entry
holds 0, not the maximum observed value -1: the amax reduction runs
into a zero-initialised buffer, so zero — never submitted — survives.
This refutes the claim that the surviving pair carries the maximum
value observed for that id. -/
theorem C4_counterexample :
    runRanker 2 [[(5, -2)], [(5, -1)]] = some [(5, 0)] ∧ (0 : ℚ) ≠ -1 := by
  constructor
  · decide
  · decide

/-- C4 (amended): in the deduplicated pool produced by the amax
reduction, each submitted example id survives as exactly one pair whose
value is `max 0` of all values submitted for that id; consequently,
when id `e` is submitted with a single value `0 ≤ v1` in one batch and
a single value `v2 > v1` in the next, the merged (pre-truncation) pool
of the second merge holds exactly `v2` for `e`. -/
theorem C4_dedupMax :
    (∀ (pairs : List (ℕ × ℚ)) (e : ℕ), e ∈ idsOf pairs →
        submittedVals (scatterAmax pairs) e = [amax0 (submittedVals pairs e)]) ∧
    (∀ (b1 b2 : List (ℕ × ℚ)) (e : ℕ) (v1 v2 : ℚ),
        submittedVals b1 e = [v1] → submittedVals b2 e = [v2] →
        0 ≤ v1 → v1 < v2 →
        submittedVals (scatterAmax (scatterAmax b1 ++ scatterAmax b2)) e = [v2]) := by
  have mem_of_single : ∀ (b : List (ℕ × ℚ)) (e : ℕ) (v : ℚ),
      submittedVals b e = [v] → e ∈ idsOf b := by
    intro b e v h
    have hne : submittedVals b e ≠ [] := by rw [h]; exact List.cons_ne_nil v []
    unfold submittedVals at hne
    rcases List.exists_mem_of_ne_nil _ hne with ⟨w, hw⟩
    rcases List.mem_map.mp hw with ⟨p, hp, rfl⟩
    have hpf := List.mem_filter.mp hp
    exact List.mem_map.mpr ⟨p, hpf.1, of_decide_eq_true hpf.2⟩
  constructor
  · intro pairs e he
    rw [submittedVals_scatterAmax, if_pos he]
  · intro b1 b2 e v1 v2 h1 h2 hv1 hlt
    have he1 : e ∈ idsOf b1 := mem_of_single b1 e v1 h1
    have he2 : e ∈ idsOf b2 := mem_of_single b2 e v2 h2
    have hv2 : (0 : ℚ) ≤ v2 := le_of_lt (lt_of_le_of_lt hv1 hlt)
    have hs1 : submittedVals (scatterAmax b1) e = [v1] := by
      rw [submittedVals_scatterAmax, if_pos he1, h1]
      unfold amax0
      simp [max_eq_right hv1]
    have hs2 : submittedVals (scatterAmax b2) e = [v2] := by
      rw [submittedVals_scatterAmax, if_pos he2, h2]
      unfold amax0
      simp [max_eq_right hv2]
    have happ : submittedVals (scatterAmax b1 ++ scatterAmax b2) e = [v1, v2] := by
      rw [submittedVals_append, hs1, hs2]
      rfl
    have hmem : e ∈ idsOf (scatterAmax b1 ++ scatterAmax b2) := by
      have : idsOf (scatterAmax b1 ++ scatterAmax b2) =
          idsOf (scatterAmax b1) ++ idsOf (scatterAmax b2) := by simp [idsOf]
      rw [this, List.mem_append, idsOf_scatterAmax, idsOf_scatterAmax]
      exact Or.inl (mem_uniqueSorted.mpr he1)
    rw [submittedVals_scatterAmax, if_pos hmem, happ]
    unfold amax0
    simp [max_eq_right hv1, max_eq_right (le_of_lt hlt)]

/-- C4 (witness): the dedup-and-max property applied to the concrete
pair list `[(5, 3), (5, 7)]` at id 5. -/
theorem C4_dedupMax_witness :
    (5 ∈ idsOf [(5, (3 : ℚ)), (5, 7)]) ∧
    submittedVals (scatterAmax [(5, (3 : ℚ)), (5, 7)]) 5 =
      [amax0 (submittedVals [(5, (3 : ℚ)), (5, 7)] 5)] :=
  ⟨by decide, C4_dedupMax.1 [(5, 3), (5, 7)] 5 (by decide)⟩

/-- C5 (counterexample): with capacity `K = 1` and a batch with two
distinct example ids, merging the batch once retains 2 pairs (the first
merge does not truncate) while merging it twice retains only 1 (the
second merge does), so the retained sets differ.  This refutes the
claim that re-submitting the same batch content is always a no-op. -/
theorem C5_counterexample :
    runRanker 1 [[(0, 1), (1, 2)], [(0, 1), (1, 2)]] ≠
      runRanker 1 [[(0, 1), (1, 2)]] ∧
    rankerSize (runRanker 1 [[(0, 1), (1, 2)]]) = 2 ∧
    rankerSize (runRanker 1 [[(0, 1), (1, 2)], [(0, 1), (1, 2)]]) = 1 := by
  refine ⟨?_, ?_, ?_⟩
  · decide
  · decide
  · decide

/-- C5 (amended): merging the same batch content a second time leaves
the retained set unchanged provided the batch holds at most `K`
distinct example ids (so that the second merge's truncation has nothing
to cut); the counterexample shows the claim fails without this
proviso. -/
theorem C5_idempotent (K : ℕ) (b : List (ℕ × ℚ))
    (h : (uniqueSorted (idsOf b)).length ≤ K) :
    runRanker K [b, b] = runRanker K [b] := by
  simp only [runRanker, List.foldl_cons, List.foldl_nil, mergeBatch]
  rw [scatterAmax_doubled]
  have hnot : ¬ K < (scatterAmax b).length := by
    rw [scatterAmax_length]
    exact not_lt_of_le h
  rw [if_neg hnot]

/-- C5 (witness): idempotence at capacity `K = 2` for the two-id batch
`[(0, 1), (1, 2)]`. -/
theorem C5_idempotent_witness :
    (uniqueSorted (idsOf [(0, (1 : ℚ)), (1, 2)])).length ≤ 2 ∧
    runRanker 2 [[(0, 1), (1, 2)], [(0, 1), (1, 2)]] =
      runRanker 2 [[(0, 1), (1, 2)]] :=
  ⟨by decide, C5_idempotent 2 [(0, 1), (1, 2)] (by decide)⟩

/-- C2 (counterexample): finalising with zero ingested batches fails
with a `ZeroDivisionError` — `avg_loss = total_loss / total_samples`
at evaluator.py line 209 divides by the zero sample count — and not
with the spec's `EmptyEvaluationError`, which does not exist in the
code. -/
theorem C2_counterexample :
    process_dataset 10 [] = Except.error EvalError.zeroDivision ∧
    (Except.error EvalError.zeroDivision :
        Except EvalError EvalStatsModel) ≠
      Except.error EvalError.emptyEvaluation := by
  constructor
  · decide
  · decide

/-- C2 (amended): for every configured image budget, running the
statistics pass on an empty batch stream reaches the unguarded division
by the zero sample count and fails with `ZeroDivisionError`; no
`EmptyEvaluationError` guard exists. -/
theorem C2_zeroBatches (maxImages : ℕ) :
    process_dataset maxImages [] = Except.error EvalError.zeroDivision := rfl

/-- C3 (counterexample): on the spec's 2-example, 3-token, 4-feature
scenario batch the code computes `avg_l0_cls = 1`, not the claimed
`0.5`: each of the two class-token rows `[1,0,0,0]` and `[0,0,3,0]` has
exactly one strictly positive feature, so the mean over the two images
is 1. -/
theorem C3_counterexample :
    (process_dataset 10 [scenarioBatch]).map EvalStatsModel.avgL0cls =
      Except.ok 1 ∧ (1 : ℚ) ≠ 1 / 2 := by
  constructor
  · norm_num [process_dataset, finalizeStats, runLoop, ingestBatch, initTotals,
      pydiv, npMean, scenarioBatch, scenarioActs, imageL0cls, imageL0tail,
      imageL0all, countPos, Except.map, bind, Except.bind, pure, Except.pure]
  · norm_num

/-- C3 (amended): the scenario yields `avg_l0_cls = 1` (each class-token
row has exactly one positive feature), per-image L0 values 2 and 2, and
`avg_l0 = 1/2` — the claimed value 0.5 is the average per-token L0 over
non-class tokens, not the class-token statistic. -/
theorem C3_scenario :
    (process_dataset 10 [scenarioBatch]).map EvalStatsModel.avgL0cls =
      Except.ok 1 ∧
    (runLoop 10 [scenarioBatch] initTotals).allL0image = [2, 2] ∧
    (process_dataset 10 [scenarioBatch]).map EvalStatsModel.avgL0 =
      Except.ok (1 / 2) := by
  refine ⟨?_, by decide, ?_⟩
  · norm_num [process_dataset, finalizeStats, runLoop, ingestBatch, initTotals,
      pydiv, npMean, scenarioBatch, scenarioActs, imageL0cls, imageL0tail,
      imageL0all, countPos, Except.map, bind, Except.bind, pure, Except.pure]
  · norm_num [process_dataset, finalizeStats, runLoop, ingestBatch, initTotals,
      pydiv, npMean, scenarioBatch, scenarioActs, imageL0cls, imageL0tail,
      imageL0all, countPos, Except.map, bind, Except.bind, pure, Except.pure]

/-- C7: for every context string other than `"training"` and
`"post-training"`, `evaluate` fails with the invalid-context error
before touching any batch — the result is the error for every batch
stream — and the two recognised strings select `training_eval` and
`post_training_eval` respectively without failing. -/
theorem C7_contextSelection :
    (∀ (cfg : RunnerCfgModel) (batches : List EvalBatch) (context : String),
        context ≠ "training" → context ≠ "post-training" →
        evaluateRun cfg context batches =
          Except.error EvalError.invalidContext) ∧
    (∀ cfg : RunnerCfgModel,
        set_evaluation_cfg cfg "training" = Except.ok cfg.training_eval ∧
        set_evaluation_cfg cfg "post-training" =
          Except.ok cfg.post_training_eval) := by
  constructor
  · intro cfg batches context h1 h2
    simp [evaluateRun, set_evaluation_cfg, h1, h2, bind, Except.bind]
  · intro cfg
    exact ⟨rfl, rfl⟩

/-- C7 (witness): the unrecognised context `"foo"` is rejected on a
concrete configuration with an empty batch stream. -/
theorem C7_contextSelection_witness :
    ("foo" ≠ "training") ∧ ("foo" ≠ "post-training") ∧
    evaluateRun ⟨⟨1, 1, 1, 1, []⟩, ⟨2, 2, 2, 2, []⟩⟩ "foo" [] =
      Except.error EvalError.invalidContext :=
  ⟨by decide, by decide,
    C7_contextSelection.1 ⟨⟨1, 1, 1, 1, []⟩, ⟨2, 2, 2, 2, []⟩⟩ [] "foo"
      (by decide) (by decide)⟩

theorem dispatch_foldl (names : List String) (acc : List String × List String) :
    names.foldl
      (fun acc n =>
        if evaluatorAttrs.contains n then (acc.1 ++ [n], acc.2)
        else (acc.1, acc.2 ++ [n])) acc =
      (acc.1 ++ names.filter (fun n => evaluatorAttrs.contains n),
       acc.2 ++ names.filter (fun n => !evaluatorAttrs.contains n)) := by
  induction names generalizing acc with
  | nil => simp
  | cons n ns ih =>
    rw [List.foldl_cons]
    by_cases hm : n ∈ evaluatorAttrs
    · have h : evaluatorAttrs.contains n = true := by simpa using hm
      rw [if_pos h, ih]
      simp [List.filter_cons, hm]
    · have h : ¬ evaluatorAttrs.contains n = true := by simpa using hm
      rw [if_neg h, ih]
      simp [List.filter_cons, hm]

/-- C9: the dispatch loop of `evaluate` partitions the configured
evaluation-function names into the ones it invokes (exactly the names
that resolve to an attribute, in order) and the ones it warns about and
skips (exactly the unresolvable names, in order); the loop is a total
function — it never raises — and the presence of unresolvable names
does not prevent any resolvable name from being invoked. -/
theorem C9_dispatchSkips :
    ∀ names : List String,
      (dispatchEvals names).1 =
        names.filter (fun n => evaluatorAttrs.contains n) ∧
      (dispatchEvals names).2 =
        names.filter (fun n => !evaluatorAttrs.contains n) := by
  intro names
  unfold dispatchEvals
  rw [dispatch_foldl]
  exact ⟨by simp, by simp⟩

/-! Helper lemmas for the seeded sampling model. -/

theorem cons_eraseIdx_perm :
    ∀ (l : List ℕ) (j : ℕ), j < l.length →
      List.Perm (l.getD j 0 :: l.eraseIdx j) l := by
  intro l
  induction l with
  | nil => intro j hj; exact absurd hj (Nat.not_lt_zero j)
  | cons x xs ih =>
    intro j hj
    cases j with
    | zero => exact List.Perm.refl _
    | succ k =>
      have hk : k < xs.length := Nat.lt_of_succ_lt_succ hj
      exact List.Perm.trans
        (List.Perm.swap x (xs.getD k 0) (xs.eraseIdx k)) ((ih k hk).cons x)

theorem fyAux_perm :
    ∀ (fuel s : ℕ) (l : List ℕ), fuel = l.length →
      List.Perm (fyAux fuel s l) l := by
  intro fuel
  induction fuel with
  | zero =>
    intro s l h
    rw [List.length_eq_zero.mp h.symm]
    exact List.Perm.refl _
  | succ fuel ih =>
    intro s l h
    have hpos : 0 < l.length := by omega
    have hj : s % l.length < l.length := Nat.mod_lt s hpos
    have hperm := cons_eraseIdx_perm l (s % l.length) hj
    have hlen : fuel = (l.eraseIdx (s % l.length)).length := by
      have := hperm.length_eq
      simp at this
      omega
    have h0 : fyAux (fuel + 1) s l =
        l.getD (s % l.length) 0 ::
          fyAux fuel (lcgNext s) (l.eraseIdx (s % l.length)) := rfl
    rw [h0]
    exact List.Perm.trans ((ih (lcgNext s) _ hlen).cons _) hperm

theorem randperm_perm (seed n : ℕ) :
    List.Perm (randperm seed n) (List.range n) :=
  fyAux_perm n (lcgNext seed) (List.range n) (List.length_range n).symm

theorem randperm_nodup (seed n : ℕ) : (randperm seed n).Nodup :=
  (randperm_perm seed n).nodup_iff.mpr (List.nodup_range n)

theorem randperm_length (seed n : ℕ) : (randperm seed n).length = n :=
  (randperm_perm seed n).length_eq.trans (List.length_range n)

theorem mem_randperm_lt {seed n x : ℕ} (h : x ∈ randperm seed n) : x < n :=
  List.mem_range.mp ((randperm_perm seed n).subset h)

theorem nonzeroIndices_nodup (cond : List Bool) : (nonzeroIndices cond).Nodup :=
  (List.nodup_range _).filter _

theorem mem_nonzeroIndices {cond : List Bool} {i : ℕ}
    (h : i ∈ nonzeroIndices cond) : cond.getD i false = true :=
  (List.mem_filter.mp h).2

/-- C8: feature-id sampling from a frequency bin is a deterministic
function of the bin predicate, the requested count and the generator
seed (two runs with the same arguments are definitionally equal in this
functional model of the seeded torch generator); the returned ids are
pairwise distinct (drawn without replacement), every returned id
satisfies the bin's predicate, and the sample size is the requested
count capped at the number of qualifying features (all of them are
returned when fewer than `count` qualify). -/
theorem C8_sampleDeterminism :
    ∀ (cond : List Bool) (count seed : ℕ),
      sampleBin cond count seed = sampleBin cond count seed ∧
      (sampleBin cond count seed).Nodup ∧
      (∀ i ∈ sampleBin cond count seed, cond.getD i false = true) ∧
      (sampleBin cond count seed).length =
        min count (nonzeroIndices cond).length := by
  intro cond count seed
  have hpotnd : (nonzeroIndices cond).Nodup := nonzeroIndices_nodup cond
  have htaken : ∀ j ∈ (randperm seed (nonzeroIndices cond).length).take count,
      j < (nonzeroIndices cond).length := fun j hj =>
    mem_randperm_lt (List.take_subset count _ hj)
  have htknd : ((randperm seed (nonzeroIndices cond).length).take count).Nodup :=
    (List.take_sublist count _).nodup (randperm_nodup _ _)
  refine ⟨rfl, ?_, ?_, ?_⟩
  · unfold sampleBin
    refine List.Nodup.map_on ?_ htknd
    intro j1 h1 j2 h2 heq
    have hj1 := htaken j1 h1
    have hj2 := htaken j2 h2
    rw [List.getD_eq_getElem _ _ hj1, List.getD_eq_getElem _ _ hj2] at heq
    exact (List.Nodup.getElem_inj_iff hpotnd).mp heq
  · intro i hi
    unfold sampleBin at hi
    rcases List.mem_map.mp hi with ⟨j, hj, rfl⟩
    have hlt := htaken j hj
    rw [List.getD_eq_getElem _ _ hlt]
    exact mem_nonzeroIndices (List.getElem_mem hlt)
  · unfold sampleBin
    rw [List.length_map, List.length_take, randperm_length]

/-- C8 (witness): the sampling properties applied to the concrete bin
`[true, false, true]` with count 5 and seed 0, at the returned feature
id 0. -/
theorem C8_sampleDeterminism_witness :
    (0 ∈ sampleBin [true, false, true] 5 0) ∧
    ([true, false, true].getD 0 false = true) :=
  ⟨by decide, (C8_sampleDeterminism [true, false, true] 5 0).2.2.1 0 (by decide)⟩

/-! Helper lemmas for the cosine-similarity aggregation. -/

theorem collect_foldl (d : ℕ)
    (batches : List (List (List (List ℚ)) × List (List (List ℚ)))) :
    ∀ acc : List ℝ,
      batches.foldl (fun acc b => acc ++ [batchCosSim d b.1 b.2]) acc =
        acc ++ batches.map (fun b => batchCosSim d b.1 b.2) := by
  induction batches with
  | nil => intro acc; simp
  | cons b bs ih => intro acc; rw [List.foldl_cons, ih]; simp

theorem batchCos_perfect : batchCosSim 2 cosBatchA cosBatchA = 1 := by
  unfold batchCosSim cosBatchA flatten3 colAt cosSim dotQ torchEps
  norm_num [List.range_succ, List.getD]

theorem batchCos_orthogonal : batchCosSim 2 cosBatchB cosBatchBout = 0 := by
  unfold batchCosSim cosBatchB cosBatchBout flatten3 colAt cosSim dotQ torchEps
  norm_num [List.range_succ, List.getD]

/-- C6: the reported `avg_cos_sim` is `np.mean` over the list holding
one cosine scalar per batch, i.e. the unweighted arithmetic mean of the
per-batch means, for every feature-axis width and every batch sequence;
concretely, for a 1-example batch with per-batch mean 1 followed by a
3-example batch with per-batch mean 0 the code reports 1/2, whereas the
size-weighted average would be 1/4 ≠ 1/2 — batches do not contribute
in proportion to their size. -/
theorem C6_unweightedCosine :
    (∀ (d : ℕ) (batches : List (List (List (List ℚ)) × List (List (List ℚ)))),
        avg_cos_sim d batches = specUnweightedAvg d batches) ∧
    avg_cos_sim 2 [(cosBatchA, cosBatchA), (cosBatchB, cosBatchBout)] = 1 / 2 ∧
    sizeWeightedAvg 2 [(cosBatchA, cosBatchA), (cosBatchB, cosBatchBout)] = 1 / 4 ∧
    ((1 : ℝ) / 2 ≠ 1 / 4) := by
  refine ⟨?_, ?_, ?_, by norm_num⟩
  · intro d batches
    unfold avg_cos_sim collectCosSims specUnweightedAvg
    rw [collect_foldl]
    simp
  · unfold avg_cos_sim collectCosSims npMeanR
    rw [collect_foldl]
    simp [batchCos_perfect, batchCos_orthogonal]
  · unfold sizeWeightedAvg
    simp only [List.map_cons, List.map_nil, List.sum_cons, List.sum_nil]
    rw [batchCos_perfect, batchCos_orthogonal]
    norm_num [cosBatchA, cosBatchB]
